import Mathlib

/-!
# Verification of the `webtech-network/autograder` repository

This file formalises, as a shallow embedding in Lean 4, the two source
artifacts of the repository:

* `examples/assets/input_output/code_examples/cpp/advanced_calculator.cpp`
  — a C++ command-line calculator reading an operation name and operands
  from stdin; embedded below as `runCalc` over the list of stdin lines.
* `sandbox_manager/images/Dockerfile.cpp` — the hardened sandbox image
  definition; embedded below as the instruction list `dockerfileCpp`.

The orchestration subsystem described by the specification (Isolation
Provisioner / Run Orchestrator) has no source under the repository; its
operations `release` and `executeRun` are modelled from the spec, as marked
in their doc comments.

Modelling conventions for the C++ program:

* stdin is the list of lines `std::getline` would deliver; a read past the
  end of input yields `""` (C++11 `getline` clears the string on failure,
  and the program never checks the stream state).
* C++ `int` is embedded as `Int` together with the range
  `[intMin, intMax] = [-2^31, 2^31-1]`; every arithmetic step whose result
  the C++ standard leaves undefined (signed overflow, division or remainder
  by zero, non-representable quotient, integer cast of an out-of-range or
  non-finite floating value) produces the outcome `RunOutcome.undefined`.
* `std::stoi` / `std::stod` are embedded as total parsers returning
  `Option`; `none` stands for a thrown `invalid_argument` / `out_of_range`,
  both of which the program catches with `catch (...)`.  The `stod` model
  covers decimal literals with optional exponent and the `inf`/`nan` forms;
  hexadecimal float literals and platform-specific underflow reporting are
  not modelled.
* the floating-point computations `std::sqrt` and `std::pow` are modelled
  exactly over `ℚ` (no double rounding); no claim in this development
  depends on the rounded digits of either.
-/

/-! ## Character-level helpers (C locale, as used by the program) -/

/-- `::tolower` in the C locale: maps `A`–`Z` to `a`–`z`, identity elsewhere
(advanced_calculator.cpp line 14). -/
def lowerChar (c : Char) : Char :=
  if 'A' ≤ c ∧ c ≤ 'Z' then Char.ofNat (c.toNat + 32) else c

/-- The whitespace set `" \t\n\r"` the program trims from the operation
(advanced_calculator.cpp lines 16–17). -/
def wsTrim (c : Char) : Bool :=
  c == ' ' || c == '\t' || c == '\n' || c == '\r'

/-- `isspace` in the C locale, used by `strtol`/`strtod` (hence by
`std::stoi`/`std::stod`) to skip leading whitespace. -/
def isSpaceC (c : Char) : Bool :=
  c == ' ' || c == '\t' || c == '\n' || c == '\x0b' || c == '\x0c' || c == '\r'

/-- Decimal digit test. -/
def isDigitC (c : Char) : Bool :=
  '0' ≤ c && c ≤ '9'

/-- Numeric value of a list of decimal digits, most significant first. -/
def digitsToNat (ds : List Char) : ℕ :=
  ds.foldl (fun acc c => 10 * acc + (c.toNat - 48)) 0

/-- Drop trailing characters satisfying `p`. -/
def dropTrail (p : Char → Bool) (l : List Char) : List Char :=
  ((l.reverse.dropWhile p)).reverse

/-- Trim the whitespace set `" \t\n\r"` from both ends, as the two `erase`
calls of advanced_calculator.cpp lines 16–17 do (`erase(0, npos)` on an
all-whitespace string leaves the empty string, which the model matches). -/
def trimL (l : List Char) : List Char :=
  dropTrail wsTrim (l.dropWhile wsTrim)

/-- The operation normalisation of advanced_calculator.cpp lines 13–17:
lowercase every character, then trim surrounding whitespace. -/
def normalizeOp (s : String) : String :=
  String.mk (trimL (s.data.map lowerChar))

/-! ## `std::stoi` and `std::stod` models -/

/-- The smallest C++ `int` value, `INT_MIN = -2^31`. -/
def intMin : Int := -2147483648

/-- The largest C++ `int` value, `INT_MAX = 2^31 - 1`. -/
def intMax : Int := 2147483647

/-- Final range check of the `std::stoi` model: a converted value outside
`int` range makes `stoi` throw `out_of_range`, modelled as `none`. -/
def rangeGuard (v : Int) : Option Int :=
  if v < intMin ∨ intMax < v then none else some v

/-- `std::stoi` on the character list: skip C whitespace, read an optional
sign and a longest nonempty run of decimal digits (otherwise
`invalid_argument`, modelled `none`), ignore any trailing characters, and
fail with `out_of_range` (modelled `none`) outside `int` range. -/
def stoiParse (l : List Char) : Option Int :=
  let l1 := l.dropWhile isSpaceC
  let signRest : Int × List Char :=
    match l1 with
    | '+' :: r => (1, r)
    | '-' :: r => (-1, r)
    | r => (1, r)
  let ds := signRest.2.takeWhile isDigitC
  if ds = [] then none
  else rangeGuard (signRest.1 * (digitsToNat ds : Int))

/-- `std::stoi` on a string (advanced_calculator.cpp lines 41–42). -/
def stoi (s : String) : Option Int :=
  stoiParse s.data

/-- The value categories a successful `std::stod` can produce that the
program goes on to inspect: a finite value (held exactly as a rational),
an infinity of either sign, or a NaN. -/
inductive DoubleVal where
  | finite (q : ℚ)
  | posInf
  | negInf
  | nan
deriving DecidableEq

/-- The comparison `num < 0` of advanced_calculator.cpp line 24, on the
parsed double: true for negative finite values and `-inf`, false for `nan`
(IEEE comparisons with NaN are false). -/
def DoubleVal.ltZero : DoubleVal → Bool
  | .finite q => decide (q < 0)
  | .posInf => false
  | .negInf => true
  | .nan => false

/-- Magnitude bound of the `std::stod` model: `DBL_MAX = (2^53 - 1)·2^971`;
a finite literal beyond it makes `stod` throw `out_of_range` (modelled as a
parse failure, since the program catches every exception alike). -/
def maxDouble : ℚ :=
  (2 ^ 53 - 1) * 2 ^ 971

/-- Exponent part of a `strtod` literal: after `e`/`E`, an optional sign and
a digit run; with no digit the exponent part is not consumed and contributes
a factor of one, which the model renders as exponent `0`. -/
def expPart (l : List Char) : Int :=
  let signRest : Int × List Char :=
    match l with
    | '+' :: r => (1, r)
    | '-' :: r => (-1, r)
    | r => (1, r)
  let ds := signRest.2.takeWhile isDigitC
  if ds = [] then 0 else signRest.1 * (digitsToNat ds : Int)

/-- `std::stod` on the character list: skip C whitespace and an optional
sign; accept `inf`/`infinity` and `nan` (case-insensitively); otherwise read
`digits [. digits]` with at least one digit overall and an optional
exponent.  Trailing characters are ignored.  `invalid_argument` and
`out_of_range` are both modelled as `none`. -/
def stodParse (l : List Char) : Option DoubleVal :=
  let l1 := l.dropWhile isSpaceC
  let signRest : Bool × List Char :=
    match l1 with
    | '+' :: r => (false, r)
    | '-' :: r => (true, r)
    | r => (false, r)
  let low := signRest.2.map lowerChar
  if low.take 3 = ['i', 'n', 'f'] then
    some (if signRest.1 then .negInf else .posInf)
  else if low.take 3 = ['n', 'a', 'n'] then
    some .nan
  else
    let ip := signRest.2.takeWhile isDigitC
    let rest1 := signRest.2.dropWhile isDigitC
    let fpRest : List Char × List Char :=
      match rest1 with
      | '.' :: r => (r.takeWhile isDigitC, r.dropWhile isDigitC)
      | r => ([], r)
    if ip = [] ∧ fpRest.1 = [] then none
    else
      let e : Int :=
        match fpRest.2 with
        | 'e' :: r => expPart r
        | 'E' :: r => expPart r
        | _ => 0
      let mag : ℚ :=
        (digitsToNat (ip ++ fpRest.1) : ℚ) * (10 : ℚ) ^ (e - (fpRest.1.length : Int))
      let q : ℚ := if signRest.1 then -mag else mag
      if q < -maxDouble ∨ maxDouble < q then none else some (.finite q)

/-- `std::stod` on a string (advanced_calculator.cpp line 23). -/
def stod (s : String) : Option DoubleVal :=
  stodParse s.data

/-! ## The calculator program -/

/-- Observable outcome of one run of the program: either a normal
termination with the full stdout text and the exit code, or undefined
behaviour reached (the C++ standard then constrains nothing; on common
targets the listed operations trap or produce garbage). -/
inductive RunOutcome where
  | ok (stdout : String) (exitCode : Int)
  | undefined (reason : String)
deriving DecidableEq

/-- Print an `int` result followed by `std::endl` and exit 0 — undefined
behaviour if the mathematical result does not fit in `int` (C++ signed
arithmetic has no wraparound guarantee). -/
def emitInt (v : Int) : RunOutcome :=
  if v < intMin ∨ intMax < v then .undefined "signed overflow"
  else .ok (toString v ++ "\n") 0

/-- Truncation toward zero, as `static_cast<int>` applied to a
non-integral value does. -/
def ratTrunc (q : ℚ) : Int :=
  if q < 0 then -(Int.floor (-q)) else Int.floor q

/-- The `power` branch (advanced_calculator.cpp line 61):
`static_cast<int>(std::pow(a, b))`, modelled exactly over `ℚ`.
`pow(0, b)` for negative `b` is a pole error yielding `+inf`, whose cast to
`int` is undefined; a finite result is truncated toward zero and is
undefined behaviour when outside `int` range. -/
def powBranch (a b : Int) : RunOutcome :=
  if a = 0 ∧ b < 0 then .undefined "integer cast of infinity"
  else emitInt (ratTrunc ((a : ℚ) ^ b))

/-- The `sqrt` branch (advanced_calculator.cpp lines 19–33): read one more
line, parse it with `std::stod`; on a thrown exception or a negative value
print `Error: Invalid input`; otherwise print
`static_cast<int>(std::sqrt(num))`.  The square root of a finite
non-negative value is modelled exactly: its truncation equals
`Nat.sqrt ⌊num⌋`.  Casting `+inf` or `nan` to `int` is undefined. -/
def sqrtBranch (numStr : String) : RunOutcome :=
  match stod numStr with
  | none => .ok "Error: Invalid input\n" 0
  | some v =>
    if v.ltZero then .ok "Error: Invalid input\n" 0
    else
      match v with
      | .finite q =>
        let r : ℕ := Nat.sqrt (Int.toNat (Int.floor q))
        if intMax < (r : Int) then .undefined "integer cast out of range"
        else .ok (toString r ++ "\n") 0
      | _ => .undefined "integer cast out of range"

/-- The two-operand part of the program (advanced_calculator.cpp lines
35–68): parse both operand lines with `std::stoi` inside one `try` (a throw
from either prints `Error: Invalid input`), then dispatch on the normalised
operation name.  C++ `int` division and remainder truncate toward zero
(`Int.tdiv` / `Int.tmod`); `a / b` and `a % b` are undefined for `b = 0`
and for the non-representable quotient `INT_MIN / -1`. -/
def twoOpBranch (operation input1 input2 : String) : RunOutcome :=
  match stoi input1, stoi input2 with
  | some a, some b =>
    if operation = "add" then emitInt (a + b)
    else if operation = "subtract" then emitInt (a - b)
    else if operation = "multiply" then emitInt (a * b)
    else if operation = "divide" then
      if b = 0 then .ok "Error: Division by zero\n" 0
      else emitInt (Int.tdiv a b)
    else if operation = "power" then powBranch a b
    else if operation = "modulo" then
      if b = 0 then .undefined "remainder by zero"
      else if a = intMin ∧ b = -1 then .undefined "signed overflow"
      else emitInt (Int.tmod a b)
    else .ok "Error: Unknown operation\n" 0
  | _, _ => .ok "Error: Invalid input\n" 0

/-- The `i`-th stdin line; past the end of input `std::getline` leaves the
string empty. -/
def getLine (ls : List String) (i : ℕ) : String :=
  ls.getD i ""

/-- `main` of advanced_calculator.cpp over the list of stdin lines: read
and normalise the operation (lines 10–17), then either the one-operand
`sqrt` branch (lines 19–33) or the two-operand dispatch (lines 35–68). -/
def runCalc (ls : List String) : RunOutcome :=
  let operation := normalizeOp (getLine ls 0)
  if operation = "sqrt" then sqrtBranch (getLine ls 1)
  else twoOpBranch operation (getLine ls 1) (getLine ls 2)

/-! ## The sandbox image definition (`Dockerfile.cpp`) -/

/-- The instruction forms occurring in `Dockerfile.cpp`. -/
inductive DockerInstr where
  | fromImage (base : String)
  | runCmd (cmd : String)
  | workdir (path : String)
  | volumeDecl (paths : List String)
  | userSwitch (name : String)
  | cmdDefault (argv : List String)
deriving DecidableEq

/-- `sandbox_manager/images/Dockerfile.cpp`, instruction by instruction. -/
def dockerfileCpp : List DockerInstr := [
  .fromImage "alpine:3.18",
  .runCmd "apk add --no-cache gcc g++ make musl-dev",
  .runCmd "addgroup -S sandbox && adduser -S sandbox -G sandbox",
  .runCmd "rm -rf /sbin/apk /etc/apk /lib/apk /usr/share/apk",
  .runCmd "rm -f /usr/bin/wget /usr/bin/curl /usr/bin/nc",
  .workdir "/app",
  .runCmd "chown sandbox:sandbox /app",
  .volumeDecl ["/app"],
  .userSwitch "sandbox",
  .cmdDefault ["g++", "--version"]]

/-- Split a character list into space-separated words (structural helper
used to read the shell commands of the image definition). -/
def splitWordsAux : List Char → List Char → List String
  | [], acc => [String.mk acc.reverse]
  | ' ' :: rest, acc => String.mk acc.reverse :: splitWordsAux rest []
  | c :: rest, acc => splitWordsAux rest (c :: acc)

/-- The nonempty space-separated words of a shell command string. -/
def shellWords (s : String) : List String :=
  (splitWordsAux s.data []).filter (fun w => w != "")

/-- Does a word start with `-` (i.e. is it a flag rather than a path)? -/
def isFlag (w : String) : Bool :=
  match w.data with
  | '-' :: _ => true
  | _ => false

/-- Path arguments of an `rm` shell command carried by a `RUN`
instruction; empty for every other instruction. -/
def rmTargets : DockerInstr → List String
  | .runCmd c =>
    match shellWords c with
    | "rm" :: args => args.filter (fun a => !(isFlag a))
    | _ => []
  | _ => []

/-- All paths removed by `rm` commands over the whole image definition. -/
def removedPaths (df : List DockerInstr) : List String :=
  (df.map rmTargets).flatten

/-- Hardening rule 1: the `apk` binary (`/sbin/apk`) and the apk
directories are removed by some `rm` command of the image definition. -/
def removesPackageManager (df : List DockerInstr) : Prop :=
  "/sbin/apk" ∈ removedPaths df ∧ "/etc/apk" ∈ removedPaths df ∧
  "/lib/apk" ∈ removedPaths df ∧ "/usr/share/apk" ∈ removedPaths df

/-- Hardening rule 2: the network download tools `wget`, `curl` and `nc`
are removed by some `rm` command of the image definition. -/
def removesNetworkTools (df : List DockerInstr) : Prop :=
  "/usr/bin/wget" ∈ removedPaths df ∧ "/usr/bin/curl" ∈ removedPaths df ∧
  "/usr/bin/nc" ∈ removedPaths df

/-- The user account in effect at the first `CMD` instruction: the last
`USER` instruction preceding it, if any (`none` when no `CMD` occurs, or
when no `USER` precedes it — Docker then runs the command as root). -/
def activeUserAtCmd : List DockerInstr → Option String → Option String
  | [], _ => none
  | .userSwitch u :: rest, _ => activeUserAtCmd rest (some u)
  | .cmdDefault _ :: _, cur => cur
  | _ :: rest, cur => activeUserAtCmd rest cur

/-- Hardening rule 3: the default command executes as the dedicated
`sandbox` account created as a system user, not as root. -/
def switchesToUnprivilegedUser (df : List DockerInstr) : Prop :=
  activeUserAtCmd df none = some "sandbox" ∧
  .runCmd "addgroup -S sandbox && adduser -S sandbox -G sandbox" ∈ df ∧
  "sandbox" ≠ "root"

/-- Paths a `VOLUME` instruction declares; empty for other instructions. -/
def volumeTargets : DockerInstr → List String
  | .volumeDecl ps => ps
  | _ => []

/-- All volume paths declared over the whole image definition. -/
def volumePaths (df : List DockerInstr) : List String :=
  (df.map volumeTargets).flatten

/-- Paths a `RUN chown ... sandbox...` command hands to the sandbox user;
empty for every other instruction. -/
def chownedToSandbox : DockerInstr → List String
  | .runCmd c =>
    match shellWords c with
    | "chown" :: owner :: paths =>
      if owner = "sandbox:sandbox" then paths else []
    | _ => []
  | _ => []

/-- All paths chowned to the sandbox user over the image definition. -/
def sandboxOwnedPaths (df : List DockerInstr) : List String :=
  (df.map chownedToSandbox).flatten

/-- Hardening rule 4, as the image definition encodes it: the workspace
`/app` is the working directory, the unique declared volume, and the unique
path whose ownership is handed to the sandbox user (everything else in the
image stays root-owned). -/
def restrictsWritableToApp (df : List DockerInstr) : Prop :=
  volumePaths df = ["/app"] ∧ sandboxOwnedPaths df = ["/app"] ∧
  DockerInstr.workdir "/app" ∈ df

/-! ## Spec-modelled orchestration (no source under the repository) -/

/-- Run statuses of the spec's `RunResult` (spec section 3). -/
inductive RunStatus where
  | success
  | runtimeError
  | timeout
  | policyViolation
  | internalError
deriving DecidableEq

/-- Modelled from the spec: Run Orchestrator step 5 — "A non-zero exit code
is reported as `RuntimeError` ... `Success` is reserved for exit code
zero."  No orchestration source exists under the repository. -/
def statusOfExit (code : Int) : RunStatus :=
  if code = 0 then .success else .runtimeError

/-- Modelled from the spec: the resources a `SandboxInstance` holds
(section 3: filesystem root, process handle, execution identity), with a
boolean per resource recording whether it is currently held. -/
structure SandboxInstance where
  instanceId : ℕ
  rootExists : Bool
  processAlive : Bool
  identityHeld : Bool
deriving DecidableEq

/-- Modelled from the spec: `release(instance)` of the Isolation
Provisioner (section 4.3) — "guaranteed idempotent teardown — removes the
filesystem root, terminates any lingering process under that instance,
releases the identity"; it reports an error on no path.  No orchestration
source exists under the repository. -/
def release (inst : SandboxInstance) : Except String SandboxInstance :=
  .ok { inst with rootExists := false, processAlive := false, identityHeld := false }

/-- Modelled from the spec: the execution policy fields `execute` consults
(section 3); only the wall-clock limit matters to the timeout claim. -/
structure ExecutionPolicy where
  wallClockLimitMs : ℕ
deriving DecidableEq

/-- Modelled from the spec: the observable behaviour of one untrusted
program run — when (if ever) it would exit on its own, with what exit code
and streams.  `exitsAfterMs = none` is a program that never exits. -/
structure ProgramBehavior where
  exitsAfterMs : Option ℕ
  exitCode : Int
  emittedStdout : String
  emittedStderr : String

/-- The spec's `RunResult` (section 3), without the request id. -/
structure RunResult where
  status : RunStatus
  stdout : String
  stderr : String
  exitCode : Option Int
  durationMs : ℕ
deriving DecidableEq

/-- What one call of `execute` did: the result it returned, whether the
instance was released and the process tree terminated, and after how many
milliseconds of wall time the call returned. -/
structure ExecOutcome where
  result : RunResult
  instanceReleased : Bool
  processTreeTerminated : Bool
  returnedAfterMs : ℕ
deriving DecidableEq

/-- Modelled from the spec: Run Orchestrator steps 3–6 (section 4.4) — wait
for process exit or `wallClockLimitMs`, whichever first; when the timeout
fires, forcibly terminate the process tree, report status `Timeout` with
the streams captured so far and no exit code; when the process exits on its
own, report its exit code under `statusOfExit`; on every path,
unconditionally release the instance.  The call's own wall time is the run
time bounded by the limit plus the provisioning and teardown overheads.  No
orchestration source exists under the repository. -/
def executeRun (pol : ExecutionPolicy) (prog : ProgramBehavior)
    (provisionOverheadMs teardownOverheadMs : ℕ) : ExecOutcome :=
  let timedOut : ExecOutcome :=
    { result := { status := .timeout, stdout := prog.emittedStdout,
                  stderr := prog.emittedStderr, exitCode := none,
                  durationMs := pol.wallClockLimitMs }
      instanceReleased := true
      processTreeTerminated := true
      returnedAfterMs := provisionOverheadMs + pol.wallClockLimitMs + teardownOverheadMs }
  match prog.exitsAfterMs with
  | some t =>
    if t ≤ pol.wallClockLimitMs then
      { result := { status := statusOfExit prog.exitCode, stdout := prog.emittedStdout,
                    stderr := prog.emittedStderr, exitCode := some prog.exitCode,
                    durationMs := t }
        instanceReleased := true
        processTreeTerminated := false
        returnedAfterMs := provisionOverheadMs + t + teardownOverheadMs }
    else timedOut
  | none => timedOut

/-! ## Variant relations used by the claims -/

/-- `t` differs from `s` only in upper/lower case: position by position the
characters agree after the program's `::tolower` map (only `A`–`Z`/`a`–`z`
pairs are identified by it). -/
def CaseVariant (t s : String) : Prop :=
  t.data.map lowerChar = s.data.map lowerChar

instance (t s : String) : Decidable (CaseVariant t s) :=
  inferInstanceAs (Decidable (t.data.map lowerChar = s.data.map lowerChar))

/-! ## Helper lemmas -/

theorem dropWhile_eq_of_forall (p : Char → Bool) (w l : List Char)
    (hw : ∀ c ∈ w, p c = true) : (w ++ l).dropWhile p = l.dropWhile p := by
  induction w with
  | nil => rfl
  | cons c w ih =>
    rw [List.cons_append, List.dropWhile_cons, if_pos (hw c (List.mem_cons_self c w))]
    exact ih fun x hx => hw x (List.mem_cons_of_mem c hx)

theorem dropWhile_eq_nil_of_forall (p : Char → Bool) (w : List Char)
    (hw : ∀ c ∈ w, p c = true) : w.dropWhile p = [] := by
  have := dropWhile_eq_of_forall p w [] (by simpa using hw)
  simpa using this

theorem trimL_ws_prepend (w l : List Char) (hw : ∀ c ∈ w, wsTrim c = true) :
    trimL (w ++ l) = trimL l := by
  unfold trimL
  rw [dropWhile_eq_of_forall wsTrim w l hw]

theorem dropTrail_ws_append (l w : List Char) (hw : ∀ c ∈ w, wsTrim c = true) :
    dropTrail wsTrim (l ++ w) = dropTrail wsTrim l := by
  unfold dropTrail
  rw [List.reverse_append,
    dropWhile_eq_of_forall wsTrim w.reverse l.reverse
      fun c hc => hw c (List.mem_reverse.mp hc)]

theorem trimL_ws_append (l w : List Char) (hw : ∀ c ∈ w, wsTrim c = true) :
    trimL (l ++ w) = trimL l := by
  unfold trimL
  rcases he : l.dropWhile wsTrim with _ | ⟨c, rest⟩
  · rw [List.dropWhile_append, he, dropWhile_eq_nil_of_forall wsTrim w hw]
    simp
  · rw [List.dropWhile_append, he]
    simp only [List.isEmpty_cons, if_neg Bool.false_ne_true]
    exact dropTrail_ws_append (c :: rest) w hw

theorem stoi_mem_range (s : String) (v : Int) (h : stoi s = some v) :
    intMin ≤ v ∧ v ≤ intMax := by
  unfold stoi stoiParse at h
  dsimp only at h
  split at h
  · exact absurd h (by simp)
  · unfold rangeGuard at h
    split at h
    · exact absurd h (by simp)
    · rename_i hcond
      rw [not_or, not_lt, not_lt] at hcond
      injection h with h
      subst h
      exact ⟨hcond.1, hcond.2⟩

theorem tdiv_natAbs_le (a b : Int) : (Int.tdiv a b).natAbs ≤ a.natAbs := by
  rw [Int.natAbs_tdiv]
  exact Nat.div_le_self _ _

/-! ## Claims -/

/-- C1: run with the stdin lines `add`, `3`, `4`, the calculator prints
exactly `7\n` and exits with code 0, which the sandbox's reporter maps to
status `Success`. -/
theorem c1_add_three_four :
    runCalc ["add", "3", "4"] = .ok "7\n" 0 ∧ statusOfExit 0 = .success :=
  ⟨by decide, by decide⟩

/-- C2: run with the stdin lines `divide`, `5`, `0`, the calculator handles
the zero divisor itself: it prints exactly `Error: Division by zero\n` and
exits with code 0 (status `Success` for the sandbox). -/
theorem c2_divide_by_zero_handled :
    runCalc ["divide", "5", "0"] = .ok "Error: Division by zero\n" 0 ∧
    statusOfExit 0 = .success :=
  ⟨by decide, by decide⟩

/-- C7: the calculator is stateless and deterministic — its embedding is a
pure function of the stdin lines alone (the program reads nothing but
`std::cin`), so two runs on identical stdin produce identical stdout and
identical exit codes. -/
theorem c7_deterministic (s1 s2 : List String) (h : s1 = s2) :
    runCalc s1 = runCalc s2 := by
  rw [h]

theorem c7_deterministic_witness :
    runCalc ["power", "2", "10"] = runCalc ["power", "2", "10"] :=
  c7_deterministic ["power", "2", "10"] ["power", "2", "10"] rfl

/-- C8: the cpp sandbox image definition enforces the four hardening rules:
it removes the package manager (the `apk` binary and its directories),
removes the network download tools `wget`, `curl` and `nc`, runs the
default command as the unprivileged `sandbox` account, and confines the
writable workspace to the single `/app` volume (the only declared volume,
the working directory, and the only path chowned away from root). -/
theorem c8_image_hardening :
    removesPackageManager dockerfileCpp ∧ removesNetworkTools dockerfileCpp ∧
    switchesToUnprivilegedUser dockerfileCpp ∧ restrictsWritableToApp dockerfileCpp := by
  unfold removesPackageManager removesNetworkTools switchesToUnprivilegedUser
    restrictsWritableToApp
  decide

/-- C9: `release` is idempotent — after a completed first release of a
`SandboxInstance`, a second `release` call reports no error and changes no
state (it returns the instance exactly as the first call left it). -/
theorem c9_release_idempotent (i r : SandboxInstance) (h : release i = .ok r) :
    release r = .ok r := by
  simp only [release, Except.ok.injEq] at h
  subst h
  rfl

theorem c9_release_idempotent_witness :
    release ⟨7, false, false, false⟩ = .ok ⟨7, false, false, false⟩ :=
  c9_release_idempotent ⟨7, true, true, true⟩ ⟨7, false, false, false⟩ rfl

/-- C10: for every run whose untrusted program would run longer than
`wallClockLimitMs` (or never exit), `execute` reports status `Timeout`,
terminates the process tree, still releases the instance, and returns
within `wallClockLimitMs` plus the provisioning and teardown overheads —
never indefinitely. -/
theorem c10_timeout_bounded (pol : ExecutionPolicy) (prog : ProgramBehavior)
    (provisionOverheadMs teardownOverheadMs : ℕ)
    (h : ∀ t, prog.exitsAfterMs = some t → pol.wallClockLimitMs < t) :
    (executeRun pol prog provisionOverheadMs teardownOverheadMs).result.status = .timeout ∧
    (executeRun pol prog provisionOverheadMs teardownOverheadMs).processTreeTerminated = true ∧
    (executeRun pol prog provisionOverheadMs teardownOverheadMs).instanceReleased = true ∧
    (executeRun pol prog provisionOverheadMs teardownOverheadMs).returnedAfterMs ≤
      pol.wallClockLimitMs + (provisionOverheadMs + teardownOverheadMs) := by
  rcases he : prog.exitsAfterMs with _ | t
  · simp only [executeRun, he]
    refine ⟨trivial, trivial, trivial, ?_⟩
    omega
  · have ht := h t he
    simp only [executeRun, he, if_neg (Nat.not_le.mpr ht)]
    refine ⟨trivial, trivial, trivial, ?_⟩
    omega

theorem c10_timeout_bounded_witness :
    (executeRun ⟨100⟩ ⟨none, 0, "", ""⟩ 5 5).result.status = .timeout ∧
    (executeRun ⟨100⟩ ⟨none, 0, "", ""⟩ 5 5).processTreeTerminated = true ∧
    (executeRun ⟨100⟩ ⟨none, 0, "", ""⟩ 5 5).instanceReleased = true ∧
    (executeRun ⟨100⟩ ⟨none, 0, "", ""⟩ 5 5).returnedAfterMs ≤ 100 + (5 + 5) :=
  c10_timeout_bounded ⟨100⟩ ⟨none, 0, "", ""⟩ 5 5 (by intro t ht; cases ht)

/-- C3 counterexample: at the stdin lines `modulo`, `5`, `0` the selected
operation is `modulo` and the second operand parses to `0`, yet the program
does not print an error message — it evaluates `a % b` with a zero divisor,
which is undefined behaviour (a trap on common targets). -/
theorem c3_counterexample :
    normalizeOp (getLine ["modulo", "5", "0"] 0) = "modulo" ∧
    stoi (getLine ["modulo", "5", "0"] 2) = some 0 ∧
    runCalc ["modulo", "5", "0"] = .undefined "remainder by zero" := by
  decide

/-- C3 (amended): only the `divide` operation guards its zero divisor: with
a second operand parsing to `0`, `divide` prints an error line (`Error:
Division by zero`, or `Error: Invalid input` when the first operand already
fails to parse) and exits 0, while `modulo` reaches the remainder
expression `a % b` with the zero divisor — undefined behaviour. -/
theorem c3_zero_divisor_amended (ls : List String)
    (hb : stoi (getLine ls 2) = some 0) :
    (normalizeOp (getLine ls 0) = "divide" →
      runCalc ls = .ok "Error: Division by zero\n" 0 ∨
      runCalc ls = .ok "Error: Invalid input\n" 0) ∧
    (normalizeOp (getLine ls 0) = "modulo" →
      ∀ a, stoi (getLine ls 1) = some a → runCalc ls = .undefined "remainder by zero") := by
  constructor
  · intro hop
    unfold runCalc
    rw [hop, if_neg (by decide : ¬("divide" : String) = "sqrt")]
    unfold twoOpBranch
    rcases h1 : stoi (getLine ls 1) with _ | a
    · rw [hb]
      right
      rfl
    · rw [hb]
      left
      simp
  · intro hop a h1
    unfold runCalc
    rw [hop, if_neg (by decide : ¬("modulo" : String) = "sqrt")]
    unfold twoOpBranch
    rw [h1, hb]
    simp

theorem c3_zero_divisor_amended_witness :
    runCalc ["divide", "5", "0"] = .ok "Error: Division by zero\n" 0 ∨
    runCalc ["divide", "5", "0"] = .ok "Error: Invalid input\n" 0 :=
  (c3_zero_divisor_amended ["divide", "5", "0"] (by decide)).1 (by decide)

/-- C6 counterexample: both operands `-2147483648` (= `INT_MIN`) and `-1`
parse as valid ints and the divisor is nonzero, yet the program does not
print the truncated quotient `2147483648`: that value is not representable
in `int`, so the C++ division is undefined behaviour (on common targets the
process traps instead of printing). -/
theorem c6_counterexample :
    stoi "-2147483648" = some intMin ∧ stoi "-1" = some (-1) ∧ (-1 : Int) ≠ 0 ∧
    Int.tdiv intMin (-1) = 2147483648 ∧
    runCalc ["divide", "-2147483648", "-1"] = .undefined "signed overflow" := by
  decide

/-- C6 (amended): for the `divide` operation, for every pair of ints
`a`, `b` parsed from the operand lines with `b ≠ 0` — except the single
non-representable pair `a = INT_MIN`, `b = -1`, where the C++ division is
undefined — the calculator prints exactly the integer quotient truncated
toward zero (`Int.tdiv`), followed by a newline, and exits 0. -/
theorem c6_divide_truncated (ls : List String) (a b : Int)
    (hop : normalizeOp (getLine ls 0) = "divide")
    (ha : stoi (getLine ls 1) = some a) (hb : stoi (getLine ls 2) = some b)
    (hb0 : b ≠ 0) (hrep : ¬(a = intMin ∧ b = -1)) :
    runCalc ls = .ok (toString (Int.tdiv a b) ++ "\n") 0 := by
  have hra := stoi_mem_range _ _ ha
  have hno : ¬(Int.tdiv a b < intMin ∨ intMax < Int.tdiv a b) := by
    have h1 := tdiv_natAbs_le a b
    rintro (hlt | hgt)
    · unfold intMin at hlt
      unfold intMin intMax at hra
      omega
    · have ha2 : a = -2147483648 := by
        unfold intMin intMax at hra
        unfold intMax at hgt
        omega
      have htd : Int.tdiv a b = 2147483648 := by
        unfold intMax at hgt
        unfold intMin intMax at hra
        omega
      have hdiv := Int.natAbs_tdiv a b
      rw [htd, ha2] at hdiv
      have hdiv2 : 2147483648 = 2147483648 / b.natAbs := by
        have e1 : (2147483648 : Int).natAbs = 2147483648 := by decide
        have e2 : (-2147483648 : Int).natAbs = 2147483648 := by decide
        rw [e1, e2] at hdiv
        exact hdiv
      have hb1 : b.natAbs = 1 := by
        rcases Nat.div_eq_self.mp hdiv2.symm with h | h
        · exact absurd h (by decide)
        · exact h
      have hbv : b = 1 ∨ b = -1 := by omega
      rcases hbv with hbv | hbv
      · rw [hbv, Int.tdiv_one, ha2] at htd
        exact absurd htd (by decide)
      · exact hrep ⟨by rw [ha2]; rfl, hbv⟩
  unfold runCalc
  rw [hop, if_neg (by decide : ¬("divide" : String) = "sqrt")]
  unfold twoOpBranch
  rw [ha, hb]
  simp [emitInt, hb0, hno]

theorem c6_divide_truncated_witness :
    runCalc ["divide", "-7", "2"] = .ok "-3\n" 0 := by
  have h := c6_divide_truncated ["divide", "-7", "2"] (-7) 2 (by decide) (by decide)
    (by decide) (by decide) (by decide)
  rw [h]
  rfl

/-- C4: whenever an operand line fails to parse — for the two-operand
operations a `std::stoi` failure on either operand (no digits, or out of
`int` range), for `sqrt` a `std::stod` failure or a value the program's
`num < 0` test rejects — the program catches the failure internally, prints
exactly `Error: Invalid input\n`, and exits with code 0, so the sandbox
observes only a zero exit code and the captured stream, never the internal
exception. -/
theorem c4_invalid_operand (ls : List String) :
    (normalizeOp (getLine ls 0) = "sqrt" →
      (stod (getLine ls 1) = none ∨
        ∃ v, stod (getLine ls 1) = some v ∧ v.ltZero = true) →
      runCalc ls = .ok "Error: Invalid input\n" 0) ∧
    (normalizeOp (getLine ls 0) ≠ "sqrt" →
      (stoi (getLine ls 1) = none ∨ stoi (getLine ls 2) = none) →
      runCalc ls = .ok "Error: Invalid input\n" 0) := by
  constructor
  · intro hop hp
    unfold runCalc
    rw [hop, if_pos rfl]
    unfold sqrtBranch
    rcases hp with h | ⟨v, hv, hlt⟩
    · rw [h]
    · rw [hv]
      simp [hlt]
  · intro hop hp
    unfold runCalc
    rw [if_neg hop]
    unfold twoOpBranch
    rcases hp with h | h
    · rw [h]
    · rcases h1 : stoi (getLine ls 1) with _ | a
      · rfl
      · rw [h]

theorem c4_invalid_operand_witness :
    runCalc ["sqrt", "abc"] = .ok "Error: Invalid input\n" 0 :=
  (c4_invalid_operand ["sqrt", "abc"]).1 (by decide) (Or.inl (by decide))

/-- C5: the operation selection is invariant under letter case and
surrounding whitespace of the first stdin line: replacing the first line
`s` by `w1 ++ t ++ w2`, where `w1`, `w2` consist of spaces, tabs and
carriage returns and `t` differs from `s` only in upper/lower case, leaves
the whole run outcome (stdout and exit code) unchanged. -/
theorem c5_first_line_invariance (s t w1 w2 : String) (rest : List String)
    (hw1 : ∀ c ∈ w1.data, c = ' ' ∨ c = '\t' ∨ c = '\r')
    (hw2 : ∀ c ∈ w2.data, c = ' ' ∨ c = '\t' ∨ c = '\r')
    (hcase : CaseVariant t s) :
    runCalc ((w1 ++ t ++ w2) :: rest) = runCalc (s :: rest) := by
  have hm1 : ∀ c ∈ w1.data.map lowerChar, wsTrim c = true := by
    intro c hc
    rcases List.mem_map.mp hc with ⟨c0, hc0, rfl⟩
    rcases hw1 c0 hc0 with h | h | h <;> subst h <;> decide
  have hm2 : ∀ c ∈ w2.data.map lowerChar, wsTrim c = true := by
    intro c hc
    rcases List.mem_map.mp hc with ⟨c0, hc0, rfl⟩
    rcases hw2 c0 hc0 with h | h | h <;> subst h <;> decide
  have hnorm : normalizeOp (w1 ++ t ++ w2) = normalizeOp s := by
    unfold normalizeOp
    rw [String.data_append, String.data_append, List.map_append, List.map_append,
      List.append_assoc, trimL_ws_prepend (w1.data.map lowerChar) _ hm1,
      trimL_ws_append (t.data.map lowerChar) _ hm2, hcase]
  unfold runCalc getLine
  simp only [List.getD_cons_zero, List.getD_cons_succ]
  rw [hnorm]

theorem c5_first_line_invariance_witness :
    runCalc ["  ADD \r", "3", "4"] = runCalc ["add", "3", "4"] := by
  have h := c5_first_line_invariance "add" "ADD" "  " " \r" ["3", "4"]
    (by decide) (by decide) (by decide)
  rw [show ("  " ++ "ADD" ++ " \r" : String) = "  ADD \r" from by decide] at h
  exact h
